import Mathlib

/-!
Shallow embedding of the animation-synthesis and skeletal-export pipeline of
the spine2d-animation-mcp repository (src/animation_generator.py and
src/spine2d_integration.py), together with theorems checking the
natural-language specification against it.

Python floats are modelled as exact rationals; Python dicts (which preserve
insertion order and key uniqueness) are modelled as association lists, with
key assignment replacing an existing entry in place or appending a new one.
-/

namespace SpineMCP

/-- Lower-case a string character by character, as Python str.lower does on
the ASCII inputs handled here. -/
def strToLower (s : String) : String := String.mk (s.toList.map Char.toLower)

/-- Whether the character list begins with the given needle. -/
def charsBegin : List Char → List Char → Bool
  | [], _ => true
  | _ :: _, [] => false
  | n :: ns, h :: hs => n == h && charsBegin ns hs

/-- Whether the needle occurs as a contiguous run inside the haystack. -/
def charsContain (hay needle : List Char) : Bool :=
  match hay with
  | [] => needle.isEmpty
  | _ :: rest => charsBegin needle hay || charsContain rest needle

/-- Python substring test: needle in hay. -/
def strContains (hay needle : String) : Bool :=
  charsContain hay.toList needle.toList

/-- Association-list lookup by string key (first match), mirroring a Python
dict read. -/
def lookup {α : Type} : List (String × α) → String → Option α
  | [], _ => none
  | p :: rest, k => if p.1 = k then some p.2 else lookup rest k

/-- Python dict assignment d[k] = v: replace the entry under k in place if
present, otherwise append it. -/
def dictInsert {α : Type} : List (String × α) → String → α → List (String × α)
  | [], k, v => [(k, v)]
  | p :: rest, k, v =>
    if p.1 = k then (k, v) :: rest else p :: dictInsert rest k v

/-- One keyframe of an animation track: a time plus the optional fields the
templates use (sparse per keyframe, as in the Python dicts). -/
structure Keyframe where
  time : ℚ
  rotation : Option ℚ := none
  x : Option ℚ := none
  y : Option ℚ := none
  expression : Option String := none
deriving DecidableEq

/-- A track is an ordered list of keyframes. -/
abbrev Track := List Keyframe

/-- The keyframes mapping of an animation: track name to track. -/
abbrev TrackMap := List (String × Track)

/-- One particle-effect descriptor. -/
structure Particle where
  type : String
  count : ℕ
  duration : ℚ
  color : String
deriving DecidableEq

/-- Animation data: duration, named tracks, particle descriptors.  Templates
carry no particles entry, modelled as the empty list. -/
structure AnimData where
  duration : ℚ
  keyframes : TrackMap
  particles : List Particle := []
deriving DecidableEq

/-- The wave template from _initialize_templates. -/
def waveTemplate : AnimData where
  duration := 2
  keyframes :=
    [("arm_right",
      [{ time := 0, rotation := some 0, x := some 0, y := some 0 },
       { time := 1/2, rotation := some 45, x := some 10, y := some (-20) },
       { time := 1, rotation := some (-15), x := some 15, y := some (-15) },
       { time := 3/2, rotation := some 45, x := some 10, y := some (-20) },
       { time := 2, rotation := some 0, x := some 0, y := some 0 }]),
     ("hand_right",
      [{ time := 0, rotation := some 0 },
       { time := 1/2, rotation := some 15 },
       { time := 1, rotation := some (-10) },
       { time := 3/2, rotation := some 15 },
       { time := 2, rotation := some 0 }]),
     ("face",
      [{ time := 0, expression := some "neutral" },
       { time := 2, expression := some "neutral" }])]

/-- The jump template from _initialize_templates. -/
def jumpTemplate : AnimData where
  duration := 3/2
  keyframes :=
    [("root",
      [{ time := 0, y := some 0 },
       { time := 7/10, y := some 100 },
       { time := 3/2, y := some 0 }]),
     ("leg_left",
      [{ time := 0, rotation := some 0 },
       { time := 3/10, rotation := some (-15) },
       { time := 7/10, rotation := some 10 },
       { time := 6/5, rotation := some (-20) },
       { time := 3/2, rotation := some 0 }]),
     ("leg_right",
      [{ time := 0, rotation := some 0 },
       { time := 3/10, rotation := some (-15) },
       { time := 7/10, rotation := some 10 },
       { time := 6/5, rotation := some (-20) },
       { time := 3/2, rotation := some 0 }]),
     ("face",
      [{ time := 0, expression := some "neutral" },
       { time := 7/10, expression := some "excited" },
       { time := 3/2, expression := some "neutral" }])]

/-- The walk template from _initialize_templates. -/
def walkTemplate : AnimData where
  duration := 6/5
  keyframes :=
    [("root",
      [{ time := 0, x := some 0 },
       { time := 6/5, x := some 50 }]),
     ("leg_left",
      [{ time := 0, rotation := some 0 },
       { time := 3/10, rotation := some 20 },
       { time := 3/5, rotation := some 0 },
       { time := 9/10, rotation := some (-20) },
       { time := 6/5, rotation := some 0 }]),
     ("leg_right",
      [{ time := 0, rotation := some (-20) },
       { time := 3/10, rotation := some 0 },
       { time := 3/5, rotation := some 20 },
       { time := 9/10, rotation := some 0 },
       { time := 6/5, rotation := some (-20) }]),
     ("arm_left",
      [{ time := 0, rotation := some (-10) },
       { time := 3/5, rotation := some 10 },
       { time := 6/5, rotation := some (-10) }]),
     ("arm_right",
      [{ time := 0, rotation := some 10 },
       { time := 3/5, rotation := some (-10) },
       { time := 6/5, rotation := some 10 }]),
     ("face",
      [{ time := 0, expression := some "neutral" },
       { time := 6/5, expression := some "neutral" }])]

/-- The run template from _initialize_templates. -/
def runTemplate : AnimData where
  duration := 4/5
  keyframes :=
    [("root",
      [{ time := 0, x := some 0, y := some 0 },
       { time := 1/5, x := some 15, y := some 10 },
       { time := 2/5, x := some 30, y := some 0 },
       { time := 3/5, x := some 45, y := some 10 },
       { time := 4/5, x := some 60, y := some 0 }]),
     ("leg_left",
      [{ time := 0, rotation := some (-30) },
       { time := 1/5, rotation := some 0 },
       { time := 2/5, rotation := some 30 },
       { time := 3/5, rotation := some 0 },
       { time := 4/5, rotation := some (-30) }]),
     ("leg_right",
      [{ time := 0, rotation := some 30 },
       { time := 1/5, rotation := some 0 },
       { time := 2/5, rotation := some (-30) },
       { time := 3/5, rotation := some 0 },
       { time := 4/5, rotation := some 30 }]),
     ("arm_left",
      [{ time := 0, rotation := some 30 },
       { time := 2/5, rotation := some (-30) },
       { time := 4/5, rotation := some 30 }]),
     ("arm_right",
      [{ time := 0, rotation := some (-30) },
       { time := 2/5, rotation := some 30 },
       { time := 4/5, rotation := some (-30) }]),
     ("face",
      [{ time := 0, expression := some "determined" },
       { time := 4/5, expression := some "determined" }])]

/-- The idle template from _initialize_templates. -/
def idleTemplate : AnimData where
  duration := 4
  keyframes :=
    [("root",
      [{ time := 0, y := some 0 },
       { time := 2, y := some (-3) },
       { time := 4, y := some 0 }]),
     ("body",
      [{ time := 0, rotation := some 0 },
       { time := 2, rotation := some 2 },
       { time := 4, rotation := some 0 }]),
     ("head",
      [{ time := 0, rotation := some 0 },
       { time := 1, rotation := some (-1) },
       { time := 3, rotation := some 1 },
       { time := 4, rotation := some 0 }]),
     ("face",
      [{ time := 0, expression := some "neutral" },
       { time := 3/2, expression := some "blink" },
       { time := 17/10, expression := some "neutral" },
       { time := 4, expression := some "neutral" }])]

/-- The template library, in Python dict insertion order. -/
def templates : List (String × AnimData) :=
  [("wave", waveTemplate), ("jump", jumpTemplate), ("walk", walkTemplate),
   ("run", runTemplate), ("idle", idleTemplate)]

/-- An emotion modifier from _initialize_emotions. -/
structure EmotionMod where
  baseExpression : String
  blinkRate : ℚ
  speed : ℚ
  bounce : ℚ
  energy : ℚ
deriving DecidableEq

/-- The emotion modifier table, in Python dict insertion order. -/
def emotions : List (String × EmotionMod) :=
  [("happy", { baseExpression := "happy", blinkRate := 3/10, speed := 6/5,
               bounce := 13/10, energy := 13/10 }),
   ("sad", { baseExpression := "sad", blinkRate := 1/10, speed := 7/10,
             bounce := 1/2, energy := 3/5 }),
   ("angry", { baseExpression := "angry", blinkRate := 1/10, speed := 13/10,
               bounce := 4/5, energy := 3/2 }),
   ("scared", { baseExpression := "scared", blinkRate := 2/5, speed := 7/5,
                bounce := 7/10, energy := 11/10 }),
   ("excited", { baseExpression := "excited", blinkRate := 1/5, speed := 3/2,
                 bounce := 3/2, energy := 9/5 })]

/-- The intensity-word table of _parse_description, in its fixed order. -/
def intensityWords : List (String × ℚ) :=
  [("very", 3/2), ("extremely", 2), ("slightly", 7/10), ("barely", 1/2),
   ("incredibly", 2), ("super", 9/5), ("little", 3/5)]

/-- _parse_description: lower-case the text, then pick the first template
name, the first emotion name, and the first intensity word occurring as a
substring, with defaults idle, neutral and 1. -/
def parseDescription (description : String) : String × String × ℚ :=
  let d := strToLower description
  let animationType :=
    ((templates.find? (fun p => strContains d p.1)).map Prod.fst).getD "idle"
  let emotion :=
    ((emotions.find? (fun p => strContains d p.1)).map Prod.fst).getD "neutral"
  let intensity :=
    ((intensityWords.find? (fun p => strContains d p.1)).map Prod.snd).getD 1
  (animationType, emotion, intensity)

/-- _get_template: look the template up by name, falling back to idle for an
unknown name.  The Python deep copy has value semantics here. -/
def getTemplate (animationType : String) : AnimData :=
  match lookup templates animationType with
  | some t => t
  | none => idleTemplate

/-- Scale one movement value by the energy modifier, skipping exact zeroes,
as the keyframe[prop] != 0 guard does. -/
def scaleVal (energy v : ℚ) : ℚ := if v ≠ 0 then v * energy else v

/-- Energy scaling of one non-face keyframe: rotation, x and y are scaled
when present and non-zero. -/
def scaleKf (energy : ℚ) (kf : Keyframe) : Keyframe :=
  { kf with
    rotation := kf.rotation.map (scaleVal energy),
    x := kf.x.map (scaleVal energy),
    y := kf.y.map (scaleVal energy) }

/-- Expression rewrite of one face keyframe: a neutral expression becomes the
emotion's base expression. -/
def faceKf (baseExpression : String) (kf : Keyframe) : Keyframe :=
  { kf with
    expression := kf.expression.map
      (fun e => if e = "neutral" then baseExpression else e) }

/-- Per-track body of the _apply_emotion loop. -/
def applyEmotionTrack (ed : EmotionMod) (intensity : ℚ) (p : String × Track) :
    String × Track :=
  if p.1 = "face" then (p.1, p.2.map (faceKf ed.baseExpression))
  else (p.1, p.2.map (scaleKf (1 + (ed.energy - 1) * intensity)))

/-- _apply_emotion: an unknown emotion leaves the template unchanged;
otherwise the duration is divided by the intensity-adjusted speed modifier
(when that modifier is not 1) and every track is rewritten. -/
def applyEmotion (template : AnimData) (emotion : String) (intensity : ℚ) :
    AnimData :=
  match lookup emotions emotion with
  | none => template
  | some ed =>
    let speedModifier := 1 + (ed.speed - 1) * intensity
    { duration :=
        if speedModifier ≠ 1 then template.duration / speedModifier
        else template.duration,
      keyframes := template.keyframes.map (applyEmotionTrack ed intensity),
      particles := template.particles }

/-- The hair keyframes derived from the root track in
_add_physics_and_effects: every root keyframe after the first yields one
hair keyframe at min(time + 0.1, duration), with x, y and rotation (those
present) scaled by 1.2. -/
def hairFromRoot (duration : ℚ) (rootKfs : Track) : Track :=
  (rootKfs.drop 1).map (fun kf =>
    { time := min (kf.time + 1/10) duration,
      rotation := kf.rotation.map (fun v => v * (6/5)),
      x := kf.x.map (fun v => v * (6/5)),
      y := kf.y.map (fun v => v * (6/5)),
      expression := none })

/-- The particle descriptors collected from the raw request text in
_add_physics_and_effects. -/
def particlesFor (duration : ℚ) (description : String) : List Particle :=
  (if strContains description "sparkle" || strContains description "magic"
   then [{ type := "sparkle", count := 10, duration := duration,
           color := "#FFFF99" }] else []) ++
  (if strContains description "fire"
   then [{ type := "fire", count := 20, duration := duration,
           color := "#FF5500" }] else []) ++
  (if strContains description "water" || strContains description "splash"
   then [{ type := "water", count := 15, duration := duration,
           color := "#66CCFF" }] else [])

/-- The hair-derivation step of _add_physics_and_effects: when a root track
is present and yields at least one derived keyframe, append the hair track. -/
def hairStep (animationData : AnimData) : AnimData :=
  match lookup animationData.keyframes "root" with
  | some rootKfs =>
    let hairKfs := hairFromRoot animationData.duration rootKfs
    if hairKfs.isEmpty then animationData
    else { animationData with
           keyframes := animationData.keyframes ++ [("hair", hairKfs)] }
  | none => animationData

/-- The particle step of _add_physics_and_effects: attach the matched
particle descriptors when there are any. -/
def particleStep (animationData : AnimData) (description : String) : AnimData :=
  let particles := particlesFor animationData.duration description
  if particles.isEmpty then animationData
  else { animationData with particles := particles }

/-- _add_physics_and_effects: returns the animation untouched when a hair
track already exists; otherwise derives a hair track from the root track
and attaches the particle descriptors matched in the raw description. -/
def addPhysicsAndEffects (animationData : AnimData) (description : String) :
    AnimData :=
  if (lookup animationData.keyframes "hair").isSome then animationData
  else particleStep (hairStep animationData) description

/-- The data path of generate_animation: parse the description, fetch the
template, apply the emotion, (the per-character adjustment is the identity,)
and add physics and effects. -/
def synthesizeData (description : String) : AnimData :=
  let parsed := parseDescription description
  let template := getTemplate parsed.1
  let animationData := applyEmotion template parsed.2.1 parsed.2.2
  addPhysicsAndEffects animationData description

/-- The metadata record generate_animation persists next to the animation
data. -/
structure Metadata where
  animationId : String
  characterId : String
  description : String
  animationType : String
  emotion : String
  intensity : ℚ
  duration : ℚ
  createdAt : String
deriving DecidableEq

/-- The dictionary generate_animation returns to its caller. -/
structure GenResult where
  animationId : String
  animationType : String
  emotion : String
  duration : ℚ
deriving DecidableEq

/-- generate_animation with its two sources of nondeterminism (the uuid
fragment and the timestamp) passed in explicitly.  Returns the caller-facing
result, the persisted animation data and the persisted metadata. -/
def generateAnimation (uuid8 timestamp characterId description : String) :
    GenResult × AnimData × Metadata :=
  let parsed := parseDescription description
  let animationId := "anim_" ++ uuid8 ++ "_" ++ parsed.1
  let animationData := synthesizeData description
  let metadata : Metadata :=
    { animationId := animationId, characterId := characterId,
      description := description, animationType := parsed.1,
      emotion := parsed.2.1, intensity := parsed.2.2,
      duration := animationData.duration, createdAt := timestamp }
  ({ animationId := animationId, animationType := parsed.1,
     emotion := parsed.2.1, duration := animationData.duration },
   animationData, metadata)

/-- Geometry of a pixel layer as emitted by the layer decoder: the parser
always emits position and dimensions together. -/
structure LayerGeom where
  x : ℚ
  y : ℚ
  width : ℚ
  height : ℚ
deriving DecidableEq

/-- A (flattened, pixel) layer as the rig step consumes it. -/
structure Layer where
  geom : Option LayerGeom := none
  imagePath : Option String := none
deriving DecidableEq

/-- The fixed part hierarchy of _analyze_character_structure, the same for
every character. -/
def fixedHierarchy : List (String × List String) :=
  [("root", ["body"]),
   ("body", ["head", "arm_left", "arm_right", "leg_left", "leg_right"]),
   ("arm_left", ["hand_left"]),
   ("arm_right", ["hand_right"]),
   ("leg_left", ["foot_left"]),
   ("leg_right", ["foot_right"])]

/-- The inferred structure of a character: detected parts and the hierarchy
table. -/
structure RigStructure where
  parts : List (String × Layer)
  hierarchy : List (String × List String)
deriving DecidableEq

/-- A bone of the built skeleton. -/
structure Bone where
  name : String
  parent : Option String := none
  x : ℚ
  y : ℚ
  length : ℚ
deriving DecidableEq

/-- A slot binding a visual attachment to a bone. -/
structure Slot where
  name : String
  bone : String
  attachment : String
deriving DecidableEq

/-- The parent assigned to a part bone in _create_skeleton: the first
hierarchy entry whose child list contains the part, defaulting to root. -/
def parentOf (hierarchy : List (String × List String)) (partName : String) :
    String :=
  ((hierarchy.find? (fun q => q.2.contains partName)).map Prod.fst).getD "root"

/-- The bones-and-slots output of _create_skeleton. -/
structure Skeleton where
  bones : List Bone
  slots : List Slot
deriving DecidableEq

/-- _create_skeleton: one root bone centered on the canvas, then one bone per
detected part (anchor at the Y-flipped layer center when geometry is known,
else the canvas center; stored relative to the canvas center), and one slot
per part with a non-empty image path. -/
def createSkeleton (rigData : RigStructure) (width height : ℚ) : Skeleton :=
  let rootBone : Bone :=
    { name := "root", parent := none, x := width / 2, y := height / 2,
      length := 50 }
  let partBones := rigData.parts.map (fun p =>
    let anchor : ℚ × ℚ :=
      match p.2.geom with
      | some g => (g.x + g.width / 2, height - g.y - g.height / 2)
      | none => (width / 2, height / 2)
    ({ name := p.1,
       parent := some (parentOf rigData.hierarchy p.1),
       x := anchor.1 - width / 2,
       y := anchor.2 - height / 2,
       length :=
         match p.2.geom with
         | some g => max g.width g.height / 2
         | none => 50 } : Bone))
  let slots := rigData.parts.filterMap (fun p =>
    match p.2.imagePath with
    | some ip =>
      if ip ≠ "" then
        some ({ name := "slot_" ++ p.1, bone := p.1,
                attachment := ip.replace ".png" "" } : Slot)
      else none
    | none => none)
  { bones := rootBone :: partBones, slots := slots }

/-- An IK constraint declaration. -/
structure IkConstraint where
  name : String
  target : String
  bones : List String
  mix : ℚ
  bendPositive : Bool
deriving DecidableEq

/-- Whether a part key was detected. -/
def hasPart (rigData : RigStructure) (k : String) : Bool :=
  (lookup rigData.parts k).isSome

/-- _create_ik_constraints: one single-bone constraint per limb pair whose
two parts were both detected.  The skeleton argument is unused, as in the
source. -/
def createIkConstraints (rigData : RigStructure) (_skeleton : Skeleton) :
    List IkConstraint :=
  (if hasPart rigData "arm_right" && hasPart rigData "hand_right" then
    [{ name := "arm_right_ik", target := "hand_right", bones := ["arm_right"],
       mix := 1, bendPositive := true }] else []) ++
  (if hasPart rigData "arm_left" && hasPart rigData "hand_left" then
    [{ name := "arm_left_ik", target := "hand_left", bones := ["arm_left"],
       mix := 1, bendPositive := false }] else []) ++
  (if hasPart rigData "leg_right" && hasPart rigData "foot_right" then
    [{ name := "leg_right_ik", target := "foot_right", bones := ["leg_right"],
       mix := 1, bendPositive := false }] else []) ++
  (if hasPart rigData "leg_left" && hasPart rigData "foot_left" then
    [{ name := "leg_left_ik", target := "foot_left", bones := ["leg_left"],
       mix := 1, bendPositive := false }] else [])

/-- One rotate key of the interchange animation. -/
structure RotKey where
  time : ℚ
  angle : ℚ
  curve : String
deriving DecidableEq

/-- One translate key of the interchange animation. -/
structure TransKey where
  time : ℚ
  x : ℚ
  y : ℚ
  curve : String
deriving DecidableEq

/-- The per-bone timelines built by _convert_to_spine_animation.  Scale
timelines are initialised but never filled by the source. -/
structure BoneAnim where
  rotate : List RotKey
  translate : List TransKey
  scale : List TransKey
deriving DecidableEq

/-- One attachment key of the face slot timeline. -/
structure AttachKey where
  time : ℚ
  name : String
deriving DecidableEq

/-- One particle event frame. -/
structure EventFrame where
  time : ℚ
  name : String
  string : String
  int : ℕ
  float : ℚ
deriving DecidableEq

/-- The converted interchange animation. -/
structure SpineAnim where
  bones : List (String × BoneAnim)
  slots : List (String × List AttachKey)
  events : List EventFrame
deriving DecidableEq

/-- The per-track timeline construction of _convert_to_spine_animation: a
rotate key (field angle, stepped) from each keyframe carrying rotation, and
a translate key (missing axis 0, stepped) from each keyframe carrying x or
y, in keyframe order. -/
def convertTrack (kfs : Track) : BoneAnim :=
  { rotate := kfs.filterMap (fun kf =>
      kf.rotation.map (fun r =>
        { time := kf.time, angle := r, curve := "stepped" })),
    translate := kfs.filterMap (fun kf =>
      if kf.x.isSome || kf.y.isSome then
        some { time := kf.time, x := kf.x.getD 0, y := kf.y.getD 0,
               curve := "stepped" }
      else none),
    scale := [] }

/-- The bones-section loop of _convert_to_spine_animation: every track is
converted; a track enters the output only when one of its rotate, translate
or scale timelines is non-empty. -/
def convertBones (tracks : TrackMap) : List (String × BoneAnim) :=
  tracks.filterMap (fun p =>
    let ba := convertTrack p.2
    if ba.rotate.isEmpty && ba.translate.isEmpty && ba.scale.isEmpty then none
    else some (p.1, ba))

/-- _convert_to_spine_animation: the bones section from the per-track loop;
a face track yields the slot_face attachment timeline, and particles yield
zero-time events. -/
def convertToSpineAnimation (animationData : AnimData) : SpineAnim :=
  let bones := convertBones animationData.keyframes
  let slots :=
    match lookup animationData.keyframes "face" with
    | some faceKfs =>
      [("slot_face", faceKfs.filterMap (fun kf =>
        kf.expression.map (fun e =>
          ({ time := kf.time, name := "face_" ++ e } : AttachKey))))]
    | none => []
  let events := animationData.particles.map (fun pt =>
    ({ time := 0, name := "effect_" ++ pt.type, string := pt.color,
       int := pt.count, float := pt.duration } : EventFrame))
  { bones := bones, slots := slots, events := events }

/-- The skeleton-document fields of the rig project file. -/
structure SkeletonMeta where
  hash : String
  spine : String
  width : ℚ
  height : ℚ
  images : String
  audio : String
deriving DecidableEq

/-- The persisted skeleton project document. -/
structure SkeletonDocument where
  skeletonMeta : SkeletonMeta
  bones : List Bone
  slots : List Slot
  skins : List (String × List (String × String))
  ik : List IkConstraint
  animations : List (String × SpineAnim)
deriving DecidableEq

/-- The merge step of export_animation: the converted animation is stored in
the document's animations map under the animation-type name. -/
def exportMerge (doc : SkeletonDocument) (animationType : String)
    (animationData : AnimData) : SkeletonDocument :=
  { doc with
    animations :=
      dictInsert doc.animations animationType
        (convertToSpineAnimation animationData) }

/-- A small concrete skeleton document already holding a walk animation,
used to exercise the merge step. -/
def sampleDoc : SkeletonDocument where
  skeletonMeta :=
    { hash := "h", spine := "4.1.00", width := 400, height := 400,
      images := "../characters/c1/", audio := "" }
  bones := []
  slots := []
  skins := []
  ik := []
  animations := [("walk", { bones := [], slots := [], events := [] })]

/-- The intensity-adjusted speed modifier _apply_emotion divides by (1 for
an unknown emotion, which applies no modification). -/
def speedModifier (e : String) (i : ℚ) : ℚ :=
  match lookup emotions e with
  | none => 1
  | some ed => 1 + (ed.speed - 1) * i

/-- The duration invariant asserted by the specification: the duration
bounds every keyframe time of every track. -/
def timesBounded (a : AnimData) : Prop :=
  ∀ p ∈ a.keyframes, ∀ kf ∈ p.2, kf.time ≤ a.duration

instance (a : AnimData) : Decidable (timesBounded a) := by
  unfold timesBounded
  infer_instance

/-- No keyframe of a face-named track carries a movement field.  Every
animation the synthesis pipeline produces satisfies this. -/
def faceMotionFree (a : AnimData) : Prop :=
  ∀ p ∈ a.keyframes, p.1 = "face" →
    ∀ kf ∈ p.2, kf.rotation = none ∧ kf.x = none ∧ kf.y = none

instance (a : AnimData) : Decidable (faceMotionFree a) := by
  unfold faceMotionFree
  infer_instance

/-- The rotate sub-track as the specification words it: one entry per
keyframe containing rotation, under the field name angle, with stepped
interpolation. -/
def rotateTimelineOf (kfs : Track) : List RotKey :=
  kfs.filterMap (fun kf =>
    kf.rotation.map (fun r => { time := kf.time, angle := r, curve := "stepped" }))

/-- The translate sub-track as the specification words it: one entry per
keyframe containing x or y, a missing axis defaulting to 0, with stepped
interpolation. -/
def translateTimelineOf (kfs : Track) : List TransKey :=
  kfs.filterMap (fun kf =>
    if kf.x.isSome || kf.y.isSome then
      some { time := kf.time, x := kf.x.getD 0, y := kf.y.getD 0,
             curve := "stepped" }
    else none)

/-- The bones section as the specification words it: every track except
face contributes its rotate and translate sub-tracks, and appears if and
only if it produced at least one entry. -/
def bonesSpec (tracks : TrackMap) : List (String × BoneAnim) :=
  tracks.filterMap (fun p =>
    if p.1 = "face" then none
    else
      let rot := rotateTimelineOf p.2
      let tra := translateTimelineOf p.2
      if rot.isEmpty && tra.isEmpty then none
      else some (p.1, { rotate := rot, translate := tra, scale := [] }))

/-- First-hit characterization used to state the interpreter claim: the
result is the projection of the first table entry whose keyword occurs in
the text, or the default when no keyword occurs. -/
def firstHit {α β : Type} (table : List (String × α)) (proj : String × α → β)
    (text : String) (dflt res : β) : Prop :=
  (∃ pre q post, table = pre ++ q :: post ∧ strContains text q.1 = true ∧
     (∀ q2 ∈ pre, strContains text q2.1 = false) ∧ res = proj q) ∨
  (res = dflt ∧ ∀ q ∈ table, strContains text q.1 = false)

/-- All keywords the interpreter reacts to. -/
def keywordPool : List String :=
  templates.map Prod.fst ++ emotions.map Prod.fst ++ intensityWords.map Prod.fst

/-- A request text containing no recognized keyword. -/
def noKeyword (d : String) : Prop :=
  ∀ w ∈ keywordPool, strContains (strToLower d) w = false

instance (d : String) : Decidable (noKeyword d) := by
  unfold noKeyword
  infer_instance

/-- The four limb pairs the IK builder handles: constraint name, proximal
bone, distal target, bendPositive flag. -/
def limbPairs : List (String × String × String × Bool) :=
  [("arm_right_ik", "arm_right", "hand_right", true),
   ("arm_left_ik", "arm_left", "hand_left", false),
   ("leg_right_ik", "leg_right", "foot_right", false),
   ("leg_left_ik", "leg_left", "foot_left", false)]

/-!
A small heap model for the aliasing question around the template library:
the stored templates are cells in a heap, generate_animation reads a
template through copy.deepcopy (modelled as allocating a fresh cell holding
the same value) and then mutates its working animation in place (modelled as
writing back to that fresh cell).  Had _get_template returned the stored
reference instead, the in-place emotion application would overwrite the
stored cell.
-/

/-- The generator state across repeated generate_animation calls: the
template library as named references into a heap of animation values. -/
structure GenState where
  templateRefs : List (String × ℕ)
  heap : List AnimData

/-- Read a heap cell. -/
def heapGet (h : List AnimData) (r : ℕ) : AnimData :=
  h.getD r { duration := 0, keyframes := [] }

/-- Overwrite a heap cell in place. -/
def heapSet (h : List AnimData) (r : ℕ) (v : AnimData) : List AnimData :=
  h.set r v

/-- _get_template under the heap model: resolve the name (unknown names fall
back to idle), deep-copy the stored value into a fresh cell, and hand back
the fresh reference. -/
def getTemplateRef (s : GenState) (animationType : String) : GenState × ℕ :=
  let r :=
    match lookup s.templateRefs animationType with
    | some r => r
    | none => (lookup s.templateRefs "idle").getD 0
  ({ s with heap := s.heap ++ [heapGet s.heap r] }, s.heap.length)

/-- One generate_animation call under the heap model: parse, copy the
template, then apply the emotion and the physics/effects pass by mutating
the working cell in place. -/
def generateStep (s : GenState) (description : String) : GenState × AnimData :=
  let parsed := parseDescription description
  let alloc := getTemplateRef s parsed.1
  let s1 := alloc.1
  let r := alloc.2
  let s2 : GenState :=
    { s1 with
      heap := heapSet s1.heap r
        (applyEmotion (heapGet s1.heap r) parsed.2.1 parsed.2.2) }
  let s3 : GenState :=
    { s2 with
      heap := heapSet s2.heap r
        (addPhysicsAndEffects (heapGet s2.heap r) description) }
  (s3, heapGet s3.heap r)

/-- A sequence of generate_animation calls. -/
def runRequests (s : GenState) (descriptions : List String) : GenState :=
  descriptions.foldl (fun st d => (generateStep st d).1) s

/-- The initial generator state: one heap cell per stored template. -/
def initGenState : GenState where
  templateRefs :=
    [("wave", 0), ("jump", 1), ("walk", 2), ("run", 3), ("idle", 4)]
  heap := [waveTemplate, jumpTemplate, walkTemplate, runTemplate, idleTemplate]

/-! Helper lemmas about the association-list operations. -/

theorem lookup_mem {α : Type} {m : List (String × α)} {k : String} {v : α}
    (h : lookup m k = some v) : (k, v) ∈ m := by
  induction m with
  | nil => simp [lookup] at h
  | cons p rest ih =>
    by_cases hp : p.1 = k
    · simp only [lookup, if_pos hp] at h
      injection h with h2
      subst h2
      subst hp
      exact List.mem_cons_self _ _
    · simp only [lookup, if_neg hp] at h
      exact List.mem_cons_of_mem _ (ih h)

theorem lookup_eq_none {α : Type} {m : List (String × α)} {k : String} :
    lookup m k = none ↔ ∀ p ∈ m, p.1 ≠ k := by
  induction m with
  | nil => simp [lookup]
  | cons p rest ih =>
    by_cases hp : p.1 = k
    · simp [lookup, hp]
    · simp [lookup, hp, ih]

theorem lookup_append_of_none {α : Type} {m m2 : List (String × α)}
    {k : String} (h : lookup m k = none) :
    lookup (m ++ m2) k = lookup m2 k := by
  induction m with
  | nil => rfl
  | cons p rest ih =>
    by_cases hp : p.1 = k
    · simp [lookup, hp] at h
    · simp only [lookup, if_neg hp] at h ⊢
      exact ih h

theorem lookup_dictInsert_self {α : Type} (m : List (String × α)) (k : String)
    (v : α) : lookup (dictInsert m k v) k = some v := by
  induction m with
  | nil => simp [dictInsert, lookup]
  | cons p rest ih =>
    by_cases hp : p.1 = k
    · simp [dictInsert, hp, lookup]
    · simp [dictInsert, hp, lookup, ih]

theorem lookup_dictInsert_ne {α : Type} (m : List (String × α))
    {k k2 : String} (v : α) (h : k2 ≠ k) :
    lookup (dictInsert m k v) k2 = lookup m k2 := by
  have h1 : ¬ (k = k2) := fun he => h he.symm
  induction m with
  | nil => simp [dictInsert, lookup, h1]
  | cons p rest ih =>
    by_cases hp : p.1 = k
    · have h2 : ¬ (p.1 = k2) := by rw [hp]; exact h1
      simp [dictInsert, hp, lookup, h1, h2]
    · simp [dictInsert, hp, lookup, ih]

theorem find?_eq_some_split {α : Type} {p : α → Bool} {l : List α} {x : α}
    (h : l.find? p = some x) :
    ∃ pre post, l = pre ++ x :: post ∧ p x = true ∧ ∀ y ∈ pre, p y = false := by
  induction l with
  | nil => simp at h
  | cons a rest ih =>
    by_cases ha : p a
    · rw [List.find?_cons_of_pos _ ha] at h
      cases h
      exact ⟨[], rest, rfl, ha, by simp⟩
    · rw [List.find?_cons_of_neg _ (by simpa using ha)] at h
      obtain ⟨pre, post, hl, hx, hpre⟩ := ih h
      refine ⟨a :: pre, post, by simp [hl], hx, ?_⟩
      intro y hy
      rcases List.mem_cons.mp hy with hy | hy
      · subst hy; simpa using ha
      · exact hpre y hy

theorem set_append_singleton {α : Type} (xs : List α) (v w : α) :
    (xs ++ [v]).set xs.length w = xs ++ [w] := by
  induction xs with
  | nil => rfl
  | cons a rest ih => simp [List.set, ih]

theorem heapGet_append {xs ys : List AnimData} {r : ℕ}
    (h : r < xs.length) : heapGet (xs ++ ys) r = heapGet xs r := by
  unfold heapGet
  rw [List.getD_eq_getElem?_getD, List.getD_eq_getElem?_getD,
    List.getElem?_append_left h]

/-! Structural lemmas about the synthesizer. -/

theorem scaleKf_time (energy : ℚ) (kf : Keyframe) :
    (scaleKf energy kf).time = kf.time := rfl

theorem faceKf_time (b : String) (kf : Keyframe) :
    (faceKf b kf).time = kf.time := rfl

theorem applyEmotionTrack_fst (ed : EmotionMod) (i : ℚ) (p : String × Track) :
    (applyEmotionTrack ed i p).1 = p.1 := by
  unfold applyEmotionTrack
  split <;> rfl

theorem lookup_map_applyEmotionTrack (ed : EmotionMod) (i : ℚ)
    (l : TrackMap) (n : String) :
    lookup (l.map (applyEmotionTrack ed i)) n =
      (lookup l n).map (fun kfs => (applyEmotionTrack ed i (n, kfs)).2) := by
  induction l with
  | nil => rfl
  | cons p rest ih =>
    by_cases hp : p.1 = n
    · simp only [List.map_cons, lookup, applyEmotionTrack_fst, if_pos hp]
      subst hp
      rfl
    · simp only [List.map_cons, lookup, applyEmotionTrack_fst, if_neg hp]
      exact ih

theorem applyEmotion_of_none (t : AnimData) {e : String}
    (he : lookup emotions e = none) (i : ℚ) : applyEmotion t e i = t := by
  unfold applyEmotion
  rw [he]

theorem applyEmotion_keyframes (t : AnimData) {e : String} {ed : EmotionMod}
    (he : lookup emotions e = some ed) (i : ℚ) :
    (applyEmotion t e i).keyframes = t.keyframes.map (applyEmotionTrack ed i) := by
  unfold applyEmotion
  rw [he]

theorem applyEmotion_duration (t : AnimData) {e : String} {ed : EmotionMod}
    (he : lookup emotions e = some ed) (i : ℚ) :
    (applyEmotion t e i).duration =
      if 1 + (ed.speed - 1) * i ≠ 1 then t.duration / (1 + (ed.speed - 1) * i)
      else t.duration := by
  unfold applyEmotion
  rw [he]

theorem lookup_applyEmotion (t : AnimData) (e : String) (i : ℚ) (n : String) :
    lookup (applyEmotion t e i).keyframes n =
      (lookup t.keyframes n).map (fun kfs =>
        match lookup emotions e with
        | none => kfs
        | some ed => (applyEmotionTrack ed i (n, kfs)).2) := by
  cases he : lookup emotions e with
  | none =>
    rw [applyEmotion_of_none t he]
    cases lookup t.keyframes n <;> rfl
  | some ed =>
    rw [applyEmotion_keyframes t he, lookup_map_applyEmotionTrack]

theorem duration_le_applyEmotion (t : AnimData) (e : String) (i : ℚ)
    (h0 : 0 < speedModifier e i) (h1 : speedModifier e i ≤ 1)
    (hd : 0 ≤ t.duration) : t.duration ≤ (applyEmotion t e i).duration := by
  cases he : lookup emotions e with
  | none => rw [applyEmotion_of_none t he]
  | some ed =>
    rw [applyEmotion_duration t he]
    have hs : speedModifier e i = 1 + (ed.speed - 1) * i := by
      unfold speedModifier
      rw [he]
    rw [hs] at h0 h1
    by_cases hone : (1 + (ed.speed - 1) * i) = 1
    · simp [hone]
    · rw [if_pos hone, le_div_iff₀ h0]
      calc t.duration * (1 + (ed.speed - 1) * i) ≤ t.duration * 1 :=
            mul_le_mul_of_nonneg_left h1 hd
        _ = t.duration := mul_one _

theorem hairStep_duration (a : AnimData) : (hairStep a).duration = a.duration := by
  unfold hairStep
  cases lookup a.keyframes "root" with
  | none => rfl
  | some rootKfs =>
    dsimp only
    split <;> rfl

theorem particleStep_duration (a : AnimData) (d : String) :
    (particleStep a d).duration = a.duration := by
  unfold particleStep
  dsimp only
  split <;> rfl

theorem particleStep_keyframes (a : AnimData) (d : String) :
    (particleStep a d).keyframes = a.keyframes := by
  unfold particleStep
  dsimp only
  split <;> rfl

theorem addPhysics_duration (a : AnimData) (d : String) :
    (addPhysicsAndEffects a d).duration = a.duration := by
  unfold addPhysicsAndEffects
  split
  · rfl
  · rw [particleStep_duration, hairStep_duration]

theorem hairStep_keyframes_cases (a : AnimData) :
    (hairStep a).keyframes = a.keyframes ∨
      ∃ rootKfs, lookup a.keyframes "root" = some rootKfs ∧
        ¬ (hairFromRoot a.duration rootKfs).isEmpty ∧
        (hairStep a).keyframes =
          a.keyframes ++ [("hair", hairFromRoot a.duration rootKfs)] := by
  unfold hairStep
  cases hroot : lookup a.keyframes "root" with
  | none => exact Or.inl rfl
  | some rootKfs =>
    dsimp only
    by_cases hemp : (hairFromRoot a.duration rootKfs).isEmpty
    · rw [if_pos hemp]
      exact Or.inl rfl
    · rw [if_neg hemp]
      exact Or.inr ⟨rootKfs, rfl, hemp, rfl⟩

/-- The template returned by _get_template is always one of the five stored
templates. -/
theorem getTemplate_mem (m : String) :
    getTemplate m = waveTemplate ∨ getTemplate m = jumpTemplate ∨
    getTemplate m = walkTemplate ∨ getTemplate m = runTemplate ∨
    getTemplate m = idleTemplate := by
  unfold getTemplate
  cases h : lookup templates m with
  | none => simp
  | some t =>
    have hm := lookup_mem h
    simp only [templates, List.mem_cons, Prod.mk.injEq, List.not_mem_nil,
      or_false] at hm
    rcases hm with ⟨_, rfl⟩ | ⟨_, rfl⟩ | ⟨_, rfl⟩ | ⟨_, rfl⟩ | ⟨_, rfl⟩ <;>
      simp

theorem timesBounded_applyEmotion (t : AnimData) (e : String) (i : ℚ)
    (ht : timesBounded t) (hge : t.duration ≤ (applyEmotion t e i).duration) :
    timesBounded (applyEmotion t e i) := by
  cases he : lookup emotions e with
  | none =>
    rw [applyEmotion_of_none t he]
    exact ht
  | some ed =>
    intro p hp kf hkf
    rw [applyEmotion_keyframes t he i] at hp
    obtain ⟨q, hq, rfl⟩ := List.mem_map.mp hp
    have hcases : (applyEmotionTrack ed i q).2 =
        q.2.map (faceKf ed.baseExpression) ∨
        (applyEmotionTrack ed i q).2 =
          q.2.map (scaleKf (1 + (ed.energy - 1) * i)) := by
      unfold applyEmotionTrack
      split <;> simp
    rcases hcases with h2 | h2 <;> rw [h2] at hkf <;>
      obtain ⟨kf0, hkf0, rfl⟩ := List.mem_map.mp hkf
    · exact le_trans (ht q hq kf0 hkf0) hge
    · exact le_trans (ht q hq kf0 hkf0) hge

theorem timesBounded_particleStep (a : AnimData) (d : String)
    (ha : timesBounded a) : timesBounded (particleStep a d) := by
  intro p hp kf hkf
  rw [particleStep_keyframes] at hp
  rw [particleStep_duration]
  exact ha p hp kf hkf

theorem timesBounded_hairStep (a : AnimData) (ha : timesBounded a) :
    timesBounded (hairStep a) := by
  intro p hp kf hkf
  rw [hairStep_duration]
  rcases hairStep_keyframes_cases a with hk | ⟨rootKfs, _, _, hk⟩
  · rw [hk] at hp
    exact ha p hp kf hkf
  · rw [hk] at hp
    rcases List.mem_append.mp hp with hp | hp
    · exact ha p hp kf hkf
    · rcases List.mem_singleton.mp hp with rfl
      unfold hairFromRoot at hkf
      obtain ⟨kf0, _, rfl⟩ := List.mem_map.mp hkf
      exact min_le_right _ _

theorem timesBounded_addPhysics (a : AnimData) (d : String)
    (ha : timesBounded a) : timesBounded (addPhysicsAndEffects a d) := by
  unfold addPhysicsAndEffects
  split
  · exact ha
  · exact timesBounded_particleStep _ _ (timesBounded_hairStep _ ha)

end SpineMCP

namespace SpineMCP

section MainDevelopment

attribute [local semireducible] Rat.add Rat.mul Rat.inv Rat.sub

/-! Machinery for the interchange-conversion refinement. -/

theorem convertTrack_of_still (kfs : Track)
    (h : ∀ kf ∈ kfs, kf.rotation = none ∧ kf.x = none ∧ kf.y = none) :
    convertTrack kfs = { rotate := [], translate := [], scale := [] } := by
  unfold convertTrack
  have hr : kfs.filterMap (fun kf =>
      kf.rotation.map (fun r =>
        ({ time := kf.time, angle := r, curve := "stepped" } : RotKey))) = [] := by
    rw [List.filterMap_eq_nil_iff]
    intro kf hkf
    rw [(h kf hkf).1]
    rfl
  have ht : kfs.filterMap (fun kf =>
      if kf.x.isSome || kf.y.isSome then
        some ({ time := kf.time, x := kf.x.getD 0, y := kf.y.getD 0,
                curve := "stepped" } : TransKey)
      else none) = [] := by
    rw [List.filterMap_eq_nil_iff]
    intro kf hkf
    rw [(h kf hkf).2.1, (h kf hkf).2.2]
    rfl
  rw [hr, ht]

theorem convertBones_cons (p : String × Track) (rest : TrackMap) :
    convertBones (p :: rest) =
      if ((convertTrack p.2).rotate.isEmpty && (convertTrack p.2).translate.isEmpty
          && (convertTrack p.2).scale.isEmpty) = true
      then convertBones rest
      else (p.1, convertTrack p.2) :: convertBones rest := by
  unfold convertBones
  rw [List.filterMap_cons]
  by_cases hcond : ((convertTrack p.2).rotate.isEmpty
      && (convertTrack p.2).translate.isEmpty
      && (convertTrack p.2).scale.isEmpty) = true
  · rw [if_pos hcond, if_pos hcond]
  · rw [if_neg hcond, if_neg hcond]

theorem bonesSpec_cons (p : String × Track) (rest : TrackMap) :
    bonesSpec (p :: rest) =
      if p.1 = "face" then bonesSpec rest
      else if ((rotateTimelineOf p.2).isEmpty
          && (translateTimelineOf p.2).isEmpty) = true
        then bonesSpec rest
        else (p.1, { rotate := rotateTimelineOf p.2,
                     translate := translateTimelineOf p.2,
                     scale := [] }) :: bonesSpec rest := by
  unfold bonesSpec
  rw [List.filterMap_cons]
  by_cases hp : p.1 = "face"
  · rw [if_pos hp, if_pos hp]
  · rw [if_neg hp, if_neg hp]
    by_cases hemp : ((rotateTimelineOf p.2).isEmpty
        && (translateTimelineOf p.2).isEmpty) = true
    · rw [if_pos hemp, if_pos hemp]
    · rw [if_neg hemp, if_neg hemp]

theorem convertBones_eq_bonesSpec (tracks : TrackMap)
    (hface : ∀ p ∈ tracks, p.1 = "face" →
      ∀ kf ∈ p.2, kf.rotation = none ∧ kf.x = none ∧ kf.y = none) :
    convertBones tracks = bonesSpec tracks := by
  induction tracks with
  | nil => rfl
  | cons p rest ih =>
    have hrest := fun q hq => hface q (List.mem_cons_of_mem _ hq)
    rw [convertBones_cons, bonesSpec_cons]
    by_cases hp : p.1 = "face"
    · have hstill := convertTrack_of_still p.2 (hface p (List.mem_cons_self _ _) hp)
      rw [hstill, if_pos hp]
      simp only [List.isEmpty_nil, Bool.and_self, if_pos]
      exact ih hrest
    · rw [if_neg hp]
      have hrot : (convertTrack p.2).rotate = rotateTimelineOf p.2 := rfl
      have htra : (convertTrack p.2).translate = translateTimelineOf p.2 := rfl
      have hsc : (convertTrack p.2).scale = [] := rfl
      rw [hrot, htra, hsc]
      simp only [List.isEmpty_nil, Bool.and_true]
      by_cases hemp :
          ((rotateTimelineOf p.2).isEmpty && (translateTimelineOf p.2).isEmpty) = true
      · rw [if_pos hemp, if_pos hemp]
        exact ih hrest
      · rw [if_neg hemp, if_neg hemp, ih hrest]
        rfl

theorem faceMotionFree_applyEmotion (t : AnimData) (e : String) (i : ℚ)
    (h : faceMotionFree t) : faceMotionFree (applyEmotion t e i) := by
  cases he : lookup emotions e with
  | none =>
    rw [applyEmotion_of_none t he]
    exact h
  | some ed =>
    intro p hp hpface kf hkf
    rw [applyEmotion_keyframes t he i] at hp
    obtain ⟨q, hq, rfl⟩ := List.mem_map.mp hp
    have hq1 : q.1 = "face" := by
      rw [← applyEmotionTrack_fst ed i q]
      exact hpface
    have hsnd : (applyEmotionTrack ed i q).2 =
        q.2.map (faceKf ed.baseExpression) := by
      unfold applyEmotionTrack
      rw [if_pos hq1]
    rw [hsnd] at hkf
    obtain ⟨kf0, hkf0, rfl⟩ := List.mem_map.mp hkf
    have h0 := h q hq hq1 kf0 hkf0
    exact ⟨h0.1, h0.2.1, h0.2.2⟩

theorem faceMotionFree_hairStep (a : AnimData) (h : faceMotionFree a) :
    faceMotionFree (hairStep a) := by
  intro p hp hpface kf hkf
  rcases hairStep_keyframes_cases a with hk | ⟨rootKfs, _, _, hk⟩
  · rw [hk] at hp
    exact h p hp hpface kf hkf
  · rw [hk] at hp
    rcases List.mem_append.mp hp with hp | hp
    · exact h p hp hpface kf hkf
    · rcases List.mem_singleton.mp hp with rfl
      have hname : ("hair", hairFromRoot a.duration rootKfs).1 = "hair" := rfl
      rw [hname] at hpface
      exact absurd hpface (by decide)

theorem faceMotionFree_particleStep (a : AnimData) (d : String)
    (h : faceMotionFree a) : faceMotionFree (particleStep a d) := by
  intro p hp hpface kf hkf
  rw [particleStep_keyframes] at hp
  exact h p hp hpface kf hkf

theorem faceMotionFree_addPhysics (a : AnimData) (d : String)
    (h : faceMotionFree a) : faceMotionFree (addPhysicsAndEffects a d) := by
  unfold addPhysicsAndEffects
  split
  · exact h
  · exact faceMotionFree_particleStep _ _ (faceMotionFree_hairStep _ h)

theorem faceMotionFree_synthesizeData (d : String) :
    faceMotionFree (synthesizeData d) := by
  have htpl : faceMotionFree (getTemplate (parseDescription d).1) := by
    rcases getTemplate_mem (parseDescription d).1 with h | h | h | h | h <;>
      rw [h] <;> decide
  exact faceMotionFree_addPhysics _ _
    (faceMotionFree_applyEmotion _ _ _ htpl)

/-! Machinery for the interpreter claim. -/

theorem firstHit_find {α β : Type} (table : List (String × α))
    (proj : String × α → β) (text : String) (dflt : β) :
    firstHit table proj text dflt
      (((table.find? (fun p => strContains text p.1)).map proj).getD dflt) := by
  cases hf : table.find? (fun p => strContains text p.1) with
  | none =>
    right
    refine ⟨rfl, fun q hq => ?_⟩
    have := List.find?_eq_none.mp hf q hq
    simpa using this
  | some q =>
    left
    obtain ⟨pre, post, hsplit, hx, hpre⟩ := find?_eq_some_split hf
    exact ⟨pre, q, post, hsplit, hx, hpre, rfl⟩

/-! Machinery for the hair-derivation claim. -/

theorem applyEmotionTrack_snd_length (ed : EmotionMod) (i : ℚ) (n : String)
    (kfs : Track) : ((applyEmotionTrack ed i (n, kfs)).2).length = kfs.length := by
  unfold applyEmotionTrack
  split <;> simp

theorem rootTrack_two_le (m e : String) (i : ℚ) (rootKfs : Track)
    (hroot : lookup (applyEmotion (getTemplate m) e i).keyframes "root" =
      some rootKfs) : 2 ≤ rootKfs.length := by
  rw [lookup_applyEmotion] at hroot
  cases hbase : lookup (getTemplate m).keyframes "root" with
  | none =>
    rw [hbase] at hroot
    exact absurd hroot (by simp)
  | some base =>
    rw [hbase] at hroot
    have hlen : rootKfs.length = base.length := by
      cases he : lookup emotions e with
      | none =>
        rw [he] at hroot
        injection hroot with h2
        rw [← h2]
      | some ed =>
        rw [he] at hroot
        injection hroot with h2
        rw [← h2]
        exact applyEmotionTrack_snd_length ed i "root" base
    rw [hlen]
    have hall : ∀ tp ∈ templates,
        2 ≤ ((lookup tp.2.keyframes "root").map List.length).getD 2 := by decide
    rcases getTemplate_mem m with h | h | h | h | h <;> rw [h] at hbase
    · rw [show lookup waveTemplate.keyframes "root" = none from by decide]
        at hbase
      exact absurd hbase (by simp)
    · have h2 := hall ("jump", jumpTemplate)
        (List.mem_cons_of_mem _ (List.mem_cons_self _ _))
      rw [hbase] at h2
      simpa using h2
    · have h2 := hall ("walk", walkTemplate)
        (List.mem_cons_of_mem _ (List.mem_cons_of_mem _ (List.mem_cons_self _ _)))
      rw [hbase] at h2
      simpa using h2
    · have h2 := hall ("run", runTemplate)
        (List.mem_cons_of_mem _ (List.mem_cons_of_mem _
          (List.mem_cons_of_mem _ (List.mem_cons_self _ _))))
      rw [hbase] at h2
      simpa using h2
    · have h2 := hall ("idle", idleTemplate)
        (List.mem_cons_of_mem _ (List.mem_cons_of_mem _ (List.mem_cons_of_mem _
          (List.mem_cons_of_mem _ (List.mem_cons_self _ _)))))
      rw [hbase] at h2
      simpa using h2

/-! Machinery for the IK claim. -/

theorem mem_if_single {α : Type} (b : Bool) (x c : α) :
    (c ∈ (if b = true then [x] else [])) ↔ (b = true ∧ c = x) := by
  cases b <;> simp

theorem andEqTrue {a b : Bool} : ((a && b) = true) ↔ (a = true ∧ b = true) := by
  cases a <;> cases b <;> simp

theorem name_mem_createIk (r : RigStructure) (sk : Skeleton) (nm : String) :
    (∃ c ∈ createIkConstraints r sk, c.name = nm) ↔
      ((hasPart r "arm_right" && hasPart r "hand_right") = true ∧
        nm = "arm_right_ik") ∨
      ((hasPart r "arm_left" && hasPart r "hand_left") = true ∧
        nm = "arm_left_ik") ∨
      ((hasPart r "leg_right" && hasPart r "foot_right") = true ∧
        nm = "leg_right_ik") ∨
      ((hasPart r "leg_left" && hasPart r "foot_left") = true ∧
        nm = "leg_left_ik") := by
  unfold createIkConstraints
  simp only [List.mem_append, mem_if_single]
  constructor
  · rintro ⟨c, (((⟨hb, rfl⟩ | ⟨hb, rfl⟩) | ⟨hb, rfl⟩) | ⟨hb, rfl⟩), rfl⟩
    · exact Or.inl ⟨hb, rfl⟩
    · exact Or.inr (Or.inl ⟨hb, rfl⟩)
    · exact Or.inr (Or.inr (Or.inl ⟨hb, rfl⟩))
    · exact Or.inr (Or.inr (Or.inr ⟨hb, rfl⟩))
  · rintro (⟨hb, rfl⟩ | ⟨hb, rfl⟩ | ⟨hb, rfl⟩ | ⟨hb, rfl⟩)
    · exact ⟨_, Or.inl (Or.inl (Or.inl ⟨hb, rfl⟩)), rfl⟩
    · exact ⟨_, Or.inl (Or.inl (Or.inr ⟨hb, rfl⟩)), rfl⟩
    · exact ⟨_, Or.inl (Or.inr ⟨hb, rfl⟩), rfl⟩
    · exact ⟨_, Or.inr ⟨hb, rfl⟩, rfl⟩

/-! The claims. -/

/-- C1, counterexample: on the request text of the scenario the interpreter
does not pick motion wave (the word wave is not a substring of waving, so
the motion falls back to idle), and consequently the synthesized duration is
not 2.0/1.3. -/
theorem claim1_scenario_counterexample :
    (parseDescription "very happy waving with sparkles").1 = "idle" ∧
    ¬ (synthesizeData "very happy waving with sparkles").duration =
        2 / (1 + (12/10 - 1) * (3/2)) := by
  constructor
  · decide
  · decide

/-- C1, amended: for the request text "very happy waving with sparkles" the
pipeline interprets motion "idle" (since "wave" is not a substring of
"waving"), emotion "happy", intensity 1.5; the synthesized duration equals
the idle template duration 4.0 divided by 1 + (1.2 - 1)*1.5 = 1.3, and the
particles list contains exactly one entry of type "sparkle" with count 10
and color "#FFFF99". -/
theorem claim1_scenario_amended :
    parseDescription "very happy waving with sparkles" = ("idle", "happy", 3/2) ∧
    (synthesizeData "very happy waving with sparkles").duration =
      4 / (1 + (12/10 - 1) * (3/2)) ∧
    (synthesizeData "very happy waving with sparkles").particles =
      [{ type := "sparkle", count := 10,
         duration := 4 / (1 + (12/10 - 1) * (3/2)), color := "#FFFF99" }] := by
  refine ⟨by decide, by decide, by decide⟩

/-- C2, counterexample: for the animation synthesized from "happy wave" the
modulated duration 2/1.2 does not bound the keyframe times, which still
reach the unscaled template time 2.0. -/
theorem claim2_duration_counterexample :
    ¬ timesBounded (synthesizeData "happy wave") := by decide

/-- C2, amended: for every synthesized animation, the duration bounds all
keyframe times whenever the intensity-adjusted speed modifier lies in
(0, 1], i.e. whenever the modulation does not shrink the duration below the
unscaled keyframe times. -/
theorem claim2_duration_amended (m e d : String) (i : ℚ)
    (h0 : 0 < speedModifier e i) (h1 : speedModifier e i ≤ 1) :
    timesBounded (addPhysicsAndEffects (applyEmotion (getTemplate m) e i) d) := by
  have htb : timesBounded (getTemplate m) ∧ 0 ≤ (getTemplate m).duration := by
    rcases getTemplate_mem m with h | h | h | h | h <;> rw [h] <;>
      exact ⟨by decide, by decide⟩
  exact timesBounded_addPhysics _ _
    (timesBounded_applyEmotion _ _ _ htb.1
      (duration_le_applyEmotion _ _ _ h0 h1 htb.2))

/-- Witness for the amended duration claim at the sad wave with intensity
1, whose speed modifier is 0.7. -/
theorem claim2_duration_amended_witness :
    0 < speedModifier "sad" 1 ∧ speedModifier "sad" 1 ≤ 1 ∧
    timesBounded
      (addPhysicsAndEffects (applyEmotion (getTemplate "wave") "sad" 1) "x") :=
  ⟨by decide, by decide,
   claim2_duration_amended "wave" "sad" "x" 1 (by decide) (by decide)⟩

/-- C3: whenever the emotion-modulated animation has a root track and no
hair track, the output of the physics pass has a hair track with one
keyframe per root keyframe after the first, at time min(rootTime + 0.1,
duration), carrying the root keyframe x, y and rotation values (those
present) scaled by 1.2. -/
theorem claim3_hair_derivation (m e d : String) (i : ℚ) (rootKfs : Track)
    (hroot : lookup (applyEmotion (getTemplate m) e i).keyframes "root" =
      some rootKfs)
    (hhair : lookup (applyEmotion (getTemplate m) e i).keyframes "hair" =
      none) :
    ∃ hairKfs : Track,
      lookup (addPhysicsAndEffects (applyEmotion (getTemplate m) e i) d).keyframes
          "hair" = some hairKfs ∧
      hairKfs.length = rootKfs.length - 1 ∧
      ∀ j : ℕ, ∀ hj : j < hairKfs.length, ∀ hj2 : j + 1 < rootKfs.length,
        (hairKfs.get ⟨j, hj⟩).time =
          min ((rootKfs.get ⟨j + 1, hj2⟩).time + 1/10)
            (applyEmotion (getTemplate m) e i).duration ∧
        (hairKfs.get ⟨j, hj⟩).rotation =
          (rootKfs.get ⟨j + 1, hj2⟩).rotation.map (fun v => v * (6/5)) ∧
        (hairKfs.get ⟨j, hj⟩).x =
          (rootKfs.get ⟨j + 1, hj2⟩).x.map (fun v => v * (6/5)) ∧
        (hairKfs.get ⟨j, hj⟩).y =
          (rootKfs.get ⟨j + 1, hj2⟩).y.map (fun v => v * (6/5)) := by
  have h2 := rootTrack_two_le m e i rootKfs hroot
  have hlen : (hairFromRoot (applyEmotion (getTemplate m) e i).duration
      rootKfs).length = rootKfs.length - 1 := by
    simp [hairFromRoot]
  have hnonempty : (hairFromRoot (applyEmotion (getTemplate m) e i).duration
      rootKfs).isEmpty = false := by
    cases hE : (hairFromRoot (applyEmotion (getTemplate m) e i).duration
        rootKfs).isEmpty
    · rfl
    · exfalso
      have hnil := List.isEmpty_iff.mp hE
      have := congrArg List.length hnil
      rw [hlen] at this
      simp at this
      omega
  have hne : ¬ ((hairFromRoot (applyEmotion (getTemplate m) e i).duration
      rootKfs).isEmpty = true) := by
    rw [hnonempty]
    exact Bool.false_ne_true
  have hkeys : (addPhysicsAndEffects (applyEmotion (getTemplate m) e i) d).keyframes =
      (applyEmotion (getTemplate m) e i).keyframes ++
        [("hair", hairFromRoot (applyEmotion (getTemplate m) e i).duration rootKfs)] := by
    unfold addPhysicsAndEffects
    rw [if_neg (by rw [hhair]; simp), particleStep_keyframes]
    unfold hairStep
    rw [hroot]
    dsimp only
    rw [if_neg hne]
  refine ⟨hairFromRoot (applyEmotion (getTemplate m) e i).duration rootKfs,
    ?_, hlen, ?_⟩
  · rw [hkeys, lookup_append_of_none hhair]
    simp [lookup]
  · intro j hj hj2
    unfold hairFromRoot
    simp only [List.get_eq_getElem, List.getElem_map, List.getElem_drop]
    simp only [show 1 + j = j + 1 from Nat.add_comm 1 j]
    exact ⟨trivial, trivial, trivial, trivial⟩

/-- Witness for the hair-derivation claim on the jump template with an
unrecognized emotion. -/
theorem claim3_hair_derivation_witness :
    ∃ hairKfs : Track,
      lookup (addPhysicsAndEffects
          (applyEmotion (getTemplate "jump") "calm" 1) "d").keyframes "hair" =
        some hairKfs ∧
      hairKfs.length =
        ([{ time := 0, y := some 0 }, { time := 7/10, y := some 100 },
          { time := 3/2, y := some 0 }] : Track).length - 1 ∧
      ∀ j : ℕ, ∀ hj : j < hairKfs.length,
        ∀ hj2 : j + 1 < ([{ time := 0, y := some 0 },
          { time := 7/10, y := some 100 },
          { time := 3/2, y := some 0 }] : Track).length,
        (hairKfs.get ⟨j, hj⟩).time =
          min ((([{ time := 0, y := some 0 }, { time := 7/10, y := some 100 },
            { time := 3/2, y := some 0 }] : Track).get ⟨j + 1, hj2⟩).time + 1/10)
            (applyEmotion (getTemplate "jump") "calm" 1).duration ∧
        (hairKfs.get ⟨j, hj⟩).rotation =
          (([{ time := 0, y := some 0 }, { time := 7/10, y := some 100 },
            { time := 3/2, y := some 0 }] : Track).get ⟨j + 1, hj2⟩).rotation.map
            (fun v => v * (6/5)) ∧
        (hairKfs.get ⟨j, hj⟩).x =
          (([{ time := 0, y := some 0 }, { time := 7/10, y := some 100 },
            { time := 3/2, y := some 0 }] : Track).get ⟨j + 1, hj2⟩).x.map
            (fun v => v * (6/5)) ∧
        (hairKfs.get ⟨j, hj⟩).y =
          (([{ time := 0, y := some 0 }, { time := 7/10, y := some 100 },
            { time := 3/2, y := some 0 }] : Track).get ⟨j + 1, hj2⟩).y.map
            (fun v => v * (6/5)) :=
  claim3_hair_derivation "jump" "calm" "d" 1
    [{ time := 0, y := some 0 }, { time := 7/10, y := some 100 },
     { time := 3/2, y := some 0 }] (by decide) (by decide)

/-- C4: for each of the four limb pairs, an IK constraint with that pair
name exists in the built constraint list if and only if both parts of the
pair were detected; every emitted constraint targets the distal part, lists
only the proximal bone, has mix 1, and bendPositive holds exactly for
arm_right_ik. -/
theorem claim4_ik_constraints (r : RigStructure) (sk : Skeleton) :
    (∀ q ∈ limbPairs,
      ((∃ c ∈ createIkConstraints r sk, c.name = q.1) ↔
        (hasPart r q.2.1 = true ∧ hasPart r q.2.2.1 = true))) ∧
    (∀ c ∈ createIkConstraints r sk, ∃ q ∈ limbPairs,
      c.name = q.1 ∧ c.target = q.2.2.1 ∧ c.bones = [q.2.1] ∧ c.mix = 1 ∧
      c.bendPositive = q.2.2.2 ∧
      (c.bendPositive = true ↔ c.name = "arm_right_ik")) := by
  constructor
  · intro q hq
    fin_cases hq
    · rw [name_mem_createIk]
      constructor
      · rintro (⟨hb, _⟩ | ⟨_, h⟩ | ⟨_, h⟩ | ⟨_, h⟩)
        · exact andEqTrue.mp hb
        · exact absurd h (by decide)
        · exact absurd h (by decide)
        · exact absurd h (by decide)
      · rintro ⟨ha, hb⟩
        exact Or.inl ⟨andEqTrue.mpr ⟨ha, hb⟩, rfl⟩
    · rw [name_mem_createIk]
      constructor
      · rintro (⟨_, h⟩ | ⟨hb, _⟩ | ⟨_, h⟩ | ⟨_, h⟩)
        · exact absurd h (by decide)
        · exact andEqTrue.mp hb
        · exact absurd h (by decide)
        · exact absurd h (by decide)
      · rintro ⟨ha, hb⟩
        exact Or.inr (Or.inl ⟨andEqTrue.mpr ⟨ha, hb⟩, rfl⟩)
    · rw [name_mem_createIk]
      constructor
      · rintro (⟨_, h⟩ | ⟨_, h⟩ | ⟨hb, _⟩ | ⟨_, h⟩)
        · exact absurd h (by decide)
        · exact absurd h (by decide)
        · exact andEqTrue.mp hb
        · exact absurd h (by decide)
      · rintro ⟨ha, hb⟩
        exact Or.inr (Or.inr (Or.inl ⟨andEqTrue.mpr ⟨ha, hb⟩, rfl⟩))
    · rw [name_mem_createIk]
      constructor
      · rintro (⟨_, h⟩ | ⟨_, h⟩ | ⟨_, h⟩ | ⟨hb, _⟩)
        · exact absurd h (by decide)
        · exact absurd h (by decide)
        · exact absurd h (by decide)
        · exact andEqTrue.mp hb
      · rintro ⟨ha, hb⟩
        exact Or.inr (Or.inr (Or.inr ⟨andEqTrue.mpr ⟨ha, hb⟩, rfl⟩))
  · intro c hc
    unfold createIkConstraints at hc
    simp only [List.mem_append, mem_if_single] at hc
    rcases hc with ((⟨_, rfl⟩ | ⟨_, rfl⟩) | ⟨_, rfl⟩) | ⟨_, rfl⟩
    · exact ⟨("arm_right_ik", "arm_right", "hand_right", true), by decide,
        rfl, rfl, rfl, rfl, rfl, by decide⟩
    · exact ⟨("arm_left_ik", "arm_left", "hand_left", false), by decide,
        rfl, rfl, rfl, rfl, rfl, by decide⟩
    · exact ⟨("leg_right_ik", "leg_right", "foot_right", false), by decide,
        rfl, rfl, rfl, rfl, rfl, by decide⟩
    · exact ⟨("leg_left_ik", "leg_left", "foot_left", false), by decide,
        rfl, rfl, rfl, rfl, rfl, by decide⟩

/-- Witness for the IK claim: a rig with exactly the right arm and right
hand detected gets the arm_right_ik constraint. -/
theorem claim4_ik_constraints_witness :
    ∃ c ∈ createIkConstraints
        ⟨[("arm_right", {}), ("hand_right", {})], fixedHierarchy⟩
        (createSkeleton
          ⟨[("arm_right", {}), ("hand_right", {})], fixedHierarchy⟩ 100 100),
      c.name = "arm_right_ik" :=
  ((claim4_ik_constraints
      ⟨[("arm_right", {}), ("hand_right", {})], fixedHierarchy⟩
      (createSkeleton
        ⟨[("arm_right", {}), ("hand_right", {})], fixedHierarchy⟩ 100 100)).1
    ("arm_right_ik", "arm_right", "hand_right", true) (by decide)).mpr
    ⟨by decide, by decide⟩

/-- C5: for every animation the pipeline converts, the bones section of the
interchange output equals the specification description: per track except
face, a rotate entry (field angle) per keyframe with rotation and a
translate entry per keyframe with x or y (missing axis 0), both stepped; a
track appears iff it produced an entry, and face never contributes. -/
theorem claim5_convert_bones (d : String) :
    (convertToSpineAnimation (synthesizeData d)).bones =
      bonesSpec (synthesizeData d).keyframes := by
  have h := faceMotionFree_synthesizeData d
  have hb : (convertToSpineAnimation (synthesizeData d)).bones =
      convertBones (synthesizeData d).keyframes := rfl
  rw [hb]
  exact convertBones_eq_bonesSpec _ h

/-- C6: the interpreter always returns a value: the motion is the first
matching template name (default idle), the emotion the first matching
emotion name (default neutral), the intensity the value of the first
matching intensity word (default 1); under no recognized keyword the result
is (idle, neutral, 1) and the synthesized duration stays 4.0. -/
theorem claim6_interpreter_defaults (d : String) :
    firstHit templates Prod.fst (strToLower d) "idle" (parseDescription d).1 ∧
    firstHit emotions Prod.fst (strToLower d) "neutral"
      (parseDescription d).2.1 ∧
    firstHit intensityWords Prod.snd (strToLower d) 1
      (parseDescription d).2.2 ∧
    (noKeyword d →
      parseDescription d = ("idle", "neutral", 1) ∧
      (synthesizeData d).duration = 4) := by
  refine ⟨firstHit_find templates Prod.fst (strToLower d) "idle",
    firstHit_find emotions Prod.fst (strToLower d) "neutral",
    firstHit_find intensityWords Prod.snd (strToLower d) 1, ?_⟩
  intro hnk
  have hm : templates.find? (fun p => strContains (strToLower d) p.1) = none :=
    List.find?_eq_none.mpr (fun p hp => by
      have h := hnk p.1 (List.mem_append.mpr (Or.inl
        (List.mem_append.mpr (Or.inl (List.mem_map_of_mem _ hp)))))
      simp [h])
  have he : emotions.find? (fun p => strContains (strToLower d) p.1) = none :=
    List.find?_eq_none.mpr (fun p hp => by
      have h := hnk p.1 (List.mem_append.mpr (Or.inl
        (List.mem_append.mpr (Or.inr (List.mem_map_of_mem _ hp)))))
      simp [h])
  have hi : intensityWords.find? (fun p => strContains (strToLower d) p.1) =
      none :=
    List.find?_eq_none.mpr (fun p hp => by
      have h := hnk p.1 (List.mem_append.mpr (Or.inr
        (List.mem_map_of_mem _ hp)))
      simp [h])
  have hparse : parseDescription d = ("idle", "neutral", 1) := by
    unfold parseDescription
    dsimp only
    rw [hm, he, hi]
    rfl
  refine ⟨hparse, ?_⟩
  show (addPhysicsAndEffects
    (applyEmotion (getTemplate (parseDescription d).1)
      (parseDescription d).2.1 (parseDescription d).2.2) d).duration = 4
  rw [hparse, addPhysics_duration, applyEmotion_of_none _ (by decide)]
  decide

/-- Witness for the interpreter claim at the keyword-free text "zzz". -/
theorem claim6_interpreter_defaults_witness :
    noKeyword "zzz" ∧ parseDescription "zzz" = ("idle", "neutral", 1) ∧
    (synthesizeData "zzz").duration = 4 :=
  ⟨by decide, ((claim6_interpreter_defaults "zzz").2.2.2 (by decide)).1,
   ((claim6_interpreter_defaults "zzz").2.2.2 (by decide)).2⟩

/-- C7: merging an exported animation into a skeleton document stores the
converted animation under the animation-type name, replacing any prior
entry under that name, leaving every other animations entry and every other
document field unchanged. -/
theorem claim7_export_merge (doc : SkeletonDocument) (animationType : String)
    (animationData : AnimData) :
    lookup (exportMerge doc animationType animationData).animations
        animationType = some (convertToSpineAnimation animationData) ∧
    (∀ k, k ≠ animationType →
      lookup (exportMerge doc animationType animationData).animations k =
        lookup doc.animations k) ∧
    (exportMerge doc animationType animationData).skeletonMeta =
      doc.skeletonMeta ∧
    (exportMerge doc animationType animationData).bones = doc.bones ∧
    (exportMerge doc animationType animationData).slots = doc.slots ∧
    (exportMerge doc animationType animationData).skins = doc.skins ∧
    (exportMerge doc animationType animationData).ik = doc.ik :=
  ⟨lookup_dictInsert_self _ _ _,
   fun _ hk => lookup_dictInsert_ne _ _ hk,
   rfl, rfl, rfl, rfl, rfl⟩

/-- Witness for the export-merge claim on a document already holding a walk
animation. -/
theorem claim7_export_merge_witness :
    lookup (exportMerge sampleDoc "wave" waveTemplate).animations "wave" =
        some (convertToSpineAnimation waveTemplate) ∧
    lookup (exportMerge sampleDoc "wave" waveTemplate).animations "walk" =
        lookup sampleDoc.animations "walk" :=
  ⟨(claim7_export_merge sampleDoc "wave" waveTemplate).1,
   (claim7_export_merge sampleDoc "wave" waveTemplate).2.1 "walk" (by decide)⟩

/-- The heap only grows by one freshly written cell per request, so every
pre-existing cell keeps its value. -/
theorem generateStep_extends (s : GenState) (d : String) :
    ∃ v, (generateStep s d).1.heap = s.heap ++ [v] ∧
      (generateStep s d).1.templateRefs = s.templateRefs := by
  unfold generateStep getTemplateRef
  dsimp only
  unfold heapSet
  rw [set_append_singleton, set_append_singleton]
  exact ⟨_, rfl, rfl⟩

/-- C8: across any sequence of generate calls, every template cell of the
library heap (and the reference table itself) is unchanged: the deep copy
in _get_template keeps the mutating passes off the stored templates. -/
theorem claim8_template_purity (s : GenState) (ds : List String) (r : ℕ)
    (hr : r < s.heap.length) :
    heapGet (runRequests s ds).heap r = heapGet s.heap r ∧
    (runRequests s ds).templateRefs = s.templateRefs := by
  induction ds generalizing s with
  | nil => exact ⟨rfl, rfl⟩
  | cons d rest ih =>
    obtain ⟨v, hheap, hrefs⟩ := generateStep_extends s d
    have hstep : runRequests s (d :: rest) =
        runRequests (generateStep s d).1 rest := rfl
    have hr2 : r < (generateStep s d).1.heap.length := by
      rw [hheap, List.length_append]
      simp only [List.length_singleton]
      omega
    obtain ⟨ih1, ih2⟩ := ih (generateStep s d).1 hr2
    rw [hstep]
    constructor
    · rw [ih1, hheap, heapGet_append hr]
    · rw [ih2, hrefs]

/-- Witness for the template-purity claim: one request against the initial
library leaves the wave cell unchanged. -/
theorem claim8_template_purity_witness :
    heapGet (runRequests initGenState ["very happy wave with sparkles"]).heap 0 =
        heapGet initGenState.heap 0 ∧
    (runRequests initGenState ["very happy wave with sparkles"]).templateRefs =
      initGenState.templateRefs :=
  claim8_template_purity initGenState ["very happy wave with sparkles"] 0
    (by decide)

/-- C9: the persisted animation data, and every caller-facing field except
the generated id, are independent of the uuid fragment and timestamp: two
runs on the same description agree on duration, tracks and particles. -/
theorem claim9_determinism (u1 t1 u2 t2 c d : String) :
    (generateAnimation u1 t1 c d).2.1 = (generateAnimation u2 t2 c d).2.1 ∧
    (generateAnimation u1 t1 c d).2.1.duration =
      (generateAnimation u2 t2 c d).2.1.duration ∧
    (generateAnimation u1 t1 c d).2.1.keyframes =
      (generateAnimation u2 t2 c d).2.1.keyframes ∧
    (generateAnimation u1 t1 c d).2.1.particles =
      (generateAnimation u2 t2 c d).2.1.particles ∧
    (generateAnimation u1 t1 c d).1.animationType =
      (generateAnimation u2 t2 c d).1.animationType ∧
    (generateAnimation u1 t1 c d).1.emotion =
      (generateAnimation u2 t2 c d).1.emotion ∧
    (generateAnimation u1 t1 c d).1.duration =
      (generateAnimation u2 t2 c d).1.duration :=
  ⟨rfl, rfl, rfl, rfl, rfl, rfl, rfl⟩

/-- C10: each part bone's parent comes from the fixed hierarchy table alone;
with hand_right detected and arm_right undetected, the bone list contains a
bone whose parent is not the name of any bone in the list. -/
theorem claim10_dangling_parent (parts : List (String × Layer))
    (width height : ℚ) :
    (∀ p ∈ parts,
      ∃ b ∈ (createSkeleton ⟨parts, fixedHierarchy⟩ width height).bones,
        b.name = p.1 ∧ b.parent = some (parentOf fixedHierarchy p.1)) ∧
    ((lookup parts "hand_right").isSome = true →
      lookup parts "arm_right" = none →
      ∃ b ∈ (createSkeleton ⟨parts, fixedHierarchy⟩ width height).bones,
        b.parent = some "arm_right" ∧
        ∀ b2 ∈ (createSkeleton ⟨parts, fixedHierarchy⟩ width height).bones,
          b2.name ≠ "arm_right") := by
  have hpart1 : ∀ p ∈ parts,
      ∃ b ∈ (createSkeleton ⟨parts, fixedHierarchy⟩ width height).bones,
        b.name = p.1 ∧ b.parent = some (parentOf fixedHierarchy p.1) := by
    intro p hp
    exact ⟨_, List.mem_cons_of_mem _ (List.mem_map_of_mem _ hp), rfl, rfl⟩
  refine ⟨hpart1, ?_⟩
  intro hsome hnone
  cases hl : lookup parts "hand_right" with
  | none =>
    rw [hl] at hsome
    exact absurd hsome (by simp)
  | some layer =>
    obtain ⟨b, hb, hbname, hbparent⟩ := hpart1 ("hand_right", layer) (lookup_mem hl)
    refine ⟨b, hb, ?_, ?_⟩
    · have hpo : parentOf fixedHierarchy "hand_right" = "arm_right" := by decide
      rw [hbparent]
      exact congrArg some hpo
    · intro b2 hb2
      rcases List.mem_cons.mp hb2 with rfl | hb2
      · intro hc
        have hc2 : ("root" : String) = "arm_right" := hc
        exact absurd hc2 (by decide)
      · obtain ⟨q, hq, rfl⟩ := List.mem_map.mp hb2
        have hne := lookup_eq_none.mp hnone q hq
        exact hne

/-- Witness for the dangling-parent claim at a one-part rig. -/
theorem claim10_dangling_parent_witness :
    ∃ b ∈ (createSkeleton ⟨[("hand_right", {})], fixedHierarchy⟩ 100 100).bones,
      b.parent = some "arm_right" ∧
      ∀ b2 ∈ (createSkeleton ⟨[("hand_right", {})], fixedHierarchy⟩
          100 100).bones,
        b2.name ≠ "arm_right" :=
  (claim10_dangling_parent [("hand_right", {})] 100 100).2 (by decide)
    (by decide)

end MainDevelopment

end SpineMCP
